import Mathlib

/-!
Verification of the email-advising core (`Backend/email_advising/advisor.py`,
`Backend/email_advising/text_processing.py`) of the `ieor-email-reply`
repository, via a shallow embedding in Lean 4.

Conventions of the embedding:
* Python `float` confidence arithmetic is modelled with exact rationals `ℚ`.
* Tokens are Lean `String`s.  The tokenizer itself (`tokenize` /
  `normalize_text`) relies on regular expressions and Unicode NFKD
  normalisation, so the embedding quantifies over the token lists it
  produces (`raw` query tokens, per-sentence token lists, per-utterance
  token lists) instead of re-implementing the regex engine.
* Python `set`s of strings are modelled as `Finset String` where only
  cardinalities of intersections/unions matter, and as deduplicated
  `List String` where iteration or formatting order matters.
* The `TfIdfVectorizer`, `MetadataExtractor`, `KnowledgeBase` lookup and
  `TemplateEmailComposer` live in repository files that are not part of the
  provided sources; they are modelled from the spec where needed and marked
  as such.
-/

/-- `_TOKEN_SYNONYMS` from `text_processing.py`, lines 46-71, as a function
from a token to its synonym list (the Python values are sets; only
membership is ever observed, the list order here follows the source
listing). -/
def tokenSynonyms : String → List String
  | "appointment" => ["meeting", "advising", "schedule"]
  | "appointments" => ["meeting", "schedule"]
  | "book" => ["schedule", "appointment"]
  | "cancel" => ["withdraw", "drop"]
  | "course" => ["class"]
  | "courses" => ["classes"]
  | "close" => ["closes", "deadline", "end"]
  | "closes" => ["close", "deadline", "ends"]
  | "closing" => ["close", "deadline", "end"]
  | "drop" => ["withdraw", "withdrawal", "remove"]
  | "dropping" => ["withdraw", "withdrawal"]
  | "enroll" => ["register", "registration"]
  | "enrolling" => ["register", "registration"]
  | "enrollment" => ["register", "registration"]
  | "deadline" => ["close", "closing"]
  | "financial" => ["aid"]
  | "meeting" => ["appointment"]
  | "register" => ["enroll", "registration"]
  | "registration" => ["register", "enroll"]
  | "remove" => ["withdraw", "drop"]
  | "schedule" => ["appointment", "meeting"]
  | "transcript" => ["record", "records"]
  | "withdraw" => ["drop", "withdrawal"]
  | "withdrawal" => ["withdraw", "drop"]
  | _ => []

/-- `_iterate_bigrams` from `text_processing.py`: adjacent pairs of a token
sequence. -/
def iterateBigrams : List String → List (String × String)
  | a :: b :: rest => (a, b) :: iterateBigrams (b :: rest)
  | _ => []

/-- Append `t` to `acc` unless it is already present; `acc` plays the role
of both the `seen` set and the `unique_tokens` list of `augment_tokens`
(they always hold the same elements). -/
def seenAppend (acc : List String) (t : String) : List String :=
  if t ∈ acc then acc else acc ++ [t]

/-- `augment_tokens` from `text_processing.py`, lines 98-118: deduplicated
input tokens in first-occurrence order, then unseen synonyms of each token,
then unseen `left_right` bigrams. -/
def augmentTokens (tokens : List String) : List String :=
  let uniq := tokens.foldl seenAppend []
  let withSyn := tokens.foldl (fun acc t => (tokenSynonyms t).foldl seenAppend acc) uniq
  iterateBigrams tokens |>.foldl (fun acc p => seenAppend acc (p.1 ++ "_" ++ p.2)) withSyn


/-- `RankedMatch` from `models.py` (file absent from the sources; fields as
used by `advisor.py` and described by the spec, §3). -/
structure RankedMatch where
  article_id : String
  subject : String
  confidence : ℚ
deriving DecidableEq, Repr

/-- `ConfidenceSettings` from `models.py` (file absent from the sources;
fields as used by `advisor.py` and described by the spec, §3). -/
structure ConfidenceSettings where
  review_threshold : ℚ
  auto_send_threshold : ℚ
  ambiguity_gap : ℚ
deriving DecidableEq, Repr

/-- One piece of a subject/body template: literal text or a `\x7bkey\x7d`
placeholder.  Python renders templates with `str.format_map`; the
decomposition of a template string into parts is taken as given. -/
inductive TemplatePart where
  | lit (s : String)
  | hole (key : String)
deriving DecidableEq, Repr

/-- A `KnowledgeArticle` (from the absent `models.py`, fields per the spec
§3) together with the tokenised forms `EmailAdvisor.__init__` derives from
it (advisor.py lines 92-107).  Because `tokenize` is abstracted,
the token lists are carried directly:
`utteranceTokens` is `[tokenize(u) for u in article.utterances]`,
`docTokens` is `tokenize(" ".join(utterances + categories + [subject]))`,
`categoryTokensRaw` is `tokenize(" ".join(categories))`. -/
structure KnowledgeArticle where
  id : String
  subject : String
  subjectParts : List TemplatePart
  bodyParts : List TemplatePart
  metadata : List (String × String)
  followUps : List String
  utteranceTokens : List (List String)
  docTokens : List String
  categoryTokensRaw : List String

/-- `MetadataFact` from the absent `metadata.py`, per the spec §3:
(key, value, reason). -/
structure MetadataFact where
  key : String
  value : String
  reason : String

/-- `AdvisorReference` — spec §3 calls it an opaque supporting-document
descriptor; modelled as a wrapper around an opaque label. -/
structure AdvisorReference where
  label : String
deriving DecidableEq, Repr

/-- `AdvisorResponse` from the absent `models.py`, fields exactly as
constructed in `advisor.py`. -/
structure AdvisorResponse where
  subject : String
  body : String
  auto_send : Bool
  confidence : ℚ
  decision : String
  article_id : Option String
  follow_up_questions : List String
  reasons : List String
  ranked_matches : List RankedMatch
  references : List AdvisorReference
deriving DecidableEq, Repr

/-- `exact_match` of `rank_articles` (advisor.py lines 157-162): some
non-empty utterance token list equals (order-sensitively) some non-empty
sentence token list. -/
def exactMatch (utterances : List (List String)) (sentences : List (List String)) : Bool :=
  utterances.any fun ut => sentences.any fun s => !ut.isEmpty && !s.isEmpty && ut == s

/-- The three lexical maxima tracked by `rank_articles`
(advisor.py lines 166-168). -/
structure LexStats where
  bestSim : ℚ
  bestQCov : ℚ
  bestUCov : ℚ

/-- Body of the double loop of advisor.py lines 169-196 for one
(query segment, utterance) pair.  `qset` is the raw sentence token set,
`aset` its augmented set; `ut` the raw utterance token list. -/
def pairUpdate (qset aset : Finset String) (ut : List String) (st : LexStats) : LexStats :=
  if ut.isEmpty then st else
    let uset : Finset String := ut.toFinset
    let utAug : Finset String := (augmentTokens ut).toFinset
    let st1 :=
      let unionRaw := (qset ∪ uset).card
      if unionRaw ≠ 0 then
        let interRaw := (qset ∩ uset).card
        let bs := max st.bestSim ((interRaw : ℚ) / (unionRaw : ℚ))
        let bq := if 0 < qset.card then
            max st.bestQCov ((interRaw : ℚ) / (qset.card : ℚ)) else st.bestQCov
        let bu := if 0 < uset.card then
            max st.bestUCov ((interRaw : ℚ) / (uset.card : ℚ)) else st.bestUCov
        ⟨bs, bq, bu⟩
      else st
    if aset ≠ ∅ ∧ utAug ≠ ∅ then
      let unionAug := (aset ∪ utAug).card
      if unionAug ≠ 0 then
        let interAug := (aset ∩ utAug).card
        let bs := max st1.bestSim ((interAug : ℚ) / (unionAug : ℚ))
        let bq := if 0 < qset.card then
            max st1.bestQCov (((min interAug qset.card : ℕ) : ℚ) / (qset.card : ℚ))
          else st1.bestQCov
        let bu := if 0 < uset.card then
            max st1.bestUCov (((min interAug uset.card : ℕ) : ℚ) / (uset.card : ℚ))
          else st1.bestUCov
        ⟨bs, bq, bu⟩
      else st1
    else st1

/-- The full double loop of advisor.py lines 169-196: fold over query
segments (each a raw/augmented set pair) and utterance token lists. -/
def lexStats (qsets : List (Finset String × Finset String))
    (uts : List (List String)) : LexStats :=
  qsets.foldl (fun st q => uts.foldl (fun st ut => pairUpdate q.1 q.2 ut st) st) ⟨0, 0, 0⟩

/-- `article_overlap` and `category_overlap` (advisor.py lines 199-213):
maxima of augmented Jaccard of each augmented query segment against the
article token set and the category token set. -/
def overlaps (qsets : List (Finset String × Finset String))
    (artSet catSet : Finset String) : ℚ × ℚ :=
  qsets.foldl
    (fun ov q =>
      let aset := q.2
      if aset = ∅ then ov else
        let a1 :=
          let u := (aset ∪ artSet).card
          if u ≠ 0 then max ov.1 (((aset ∩ artSet).card : ℚ) / (u : ℚ)) else ov.1
        let a2 :=
          let u := (aset ∪ catSet).card
          if u ≠ 0 then max ov.2 (((aset ∩ catSet).card : ℚ) / (u : ℚ)) else ov.2
        (a1, a2))
    (0, 0)

/-- The clamped base confidence of the non-exact branch
(advisor.py lines 219-228). -/
def clampedBase (tfidf bus coverage catov : ℚ) : ℚ :=
  let base := 0.5 * bus + 0.2 * coverage + 0.2 * tfidf + 0.1 * catov
  let base := if coverage < 0.15 ∧ bus < 0.2 then base * 0.6 else base
  min (max base 0.05) 0.97

/-- The floor overrides exactly as the source writes them
(advisor.py lines 229-236): an `elif` chain of three floors followed by an
independent fourth floor. -/
def applyFloorsChain (c bus coverage catov : ℚ) : ℚ :=
  let c :=
    if bus ≥ 0.85 then max c 0.92
    else if bus ≥ 0.7 then max c 0.85
    else if bus ≥ 0.55 ∧ coverage ≥ 0.35 then max c 0.78
    else c
  if coverage ≥ 0.55 ∧ catov ≥ 0.1 ∧ bus ≥ 0.5 then max c 0.85 else c

/-- Modelled from the spec (§4.5, the sentence C2 quotes): apply *all*
floors whose predicates hold, keeping the maximum of the clamped base
confidence and every applicable floor value. -/
def applyFloorsSpec (c bus coverage catov : ℚ) : ℚ :=
  let c := if bus ≥ 0.85 then max c 0.92 else c
  let c := if bus ≥ 0.7 then max c 0.85 else c
  let c := if bus ≥ 0.55 ∧ coverage ≥ 0.35 then max c 0.78 else c
  if coverage ≥ 0.55 ∧ catov ≥ 0.1 ∧ bus ≥ 0.5 then max c 0.85 else c

/-- The confidence blend of advisor.py lines 216-236. -/
def blend (exact : Bool) (tfidf bus bqc buc catov : ℚ) : ℚ :=
  if exact then 1
  else
    let coverage := (bqc + buc) / 2
    applyFloorsChain (clampedBase tfidf bus coverage catov) bus coverage catov

/-- Per-article confidence of `rank_articles` (advisor.py lines 150-236):
exact-match detection, lexical statistics, overlaps, then the blend.
`sents` are the query sentence token lists, `qsets` the (raw, augmented)
sentence token set pairs. -/
def scoreArticle (sents : List (List String))
    (qsets : List (Finset String × Finset String))
    (a : KnowledgeArticle) (tfidf : ℚ) : ℚ :=
  let st := lexStats qsets a.utteranceTokens
  let ov := overlaps qsets (augmentTokens a.docTokens).toFinset
    (augmentTokens a.categoryTokensRaw).toFinset
  blend (exactMatch a.utteranceTokens sents) tfidf st.bestSim st.bestQCov st.bestUCov ov.2

/-- Insert into a list already sorted by non-increasing confidence, placing
`x` before the first element whose confidence is not greater — this is the
unique stable descending insertion, matching Python's stable
`list.sort(key=confidence, reverse=True)` of advisor.py line 242. -/
def insertDesc (x : RankedMatch) : List RankedMatch → List RankedMatch
  | [] => [x]
  | y :: ys => if x.confidence < y.confidence then y :: insertDesc x ys else x :: y :: ys

/-- Stable sort by non-increasing confidence (advisor.py line 242). -/
def sortDesc : List RankedMatch → List RankedMatch
  | [] => []
  | x :: xs => insertDesc x (sortDesc xs)

/-- The per-article loop of `rank_articles` (advisor.py lines 150-241):
one `RankedMatch` per (article, tfidf score) pair, in knowledge-base
order.  Like Python's `zip`, the recursion stops at the shorter list. -/
def rankedList (sents : List (List String))
    (qsets : List (Finset String × Finset String)) :
    List KnowledgeArticle → List ℚ → List RankedMatch
  | a :: arts, s :: ss =>
    ⟨a.id, a.subject, scoreArticle sents qsets a s⟩ :: rankedList sents qsets arts ss
  | _, _ => []

/-- advisor.py lines 118-124: the per-sentence token lists, falling back to
the whole-query tokens when no sentence survives.  `sents0` stands for
`[tokenize(seg) for seg in re.split(r"[.!?]+", query) if seg.strip()]`. -/
def sentencesOf (raw : List String) (sents0 : List (List String)) : List (List String) :=
  if sents0.isEmpty then [raw] else sents0

/-- advisor.py lines 125-138: the (raw set, augmented set) pair per
non-empty sentence, falling back to the whole-query sets when every
sentence is empty.  (The source's second emptiness test `if not qset` is
subsumed by the first: a token list is empty iff its set is.) -/
def querySetsOf (raw : List String) (sents : List (List String)) :
    List (Finset String × Finset String) :=
  let qs := sents.filterMap fun ts =>
    if ts.isEmpty then none else some (ts.toFinset, (augmentTokens ts).toFinset)
  if qs.isEmpty then [(raw.toFinset, (augmentTokens raw).toFinset)] else qs

/-- advisor.py lines 140-146: whole-query TF-IDF scores, maxed elementwise
with the per-sentence scores.  `sims` stands for the absent
`TfIdfVectorizer.similarities` (spec §4.3: one similarity per article). -/
def tfidfScores (sims : List String → List ℚ) (raw : List String)
    (sents : List (List String)) : List ℚ :=
  let base := sims (augmentTokens raw)
  (sents.filter fun ts => !ts.isEmpty).foldl
    (fun sc ts => List.zipWith max sc (sims (augmentTokens ts))) base

/-- `EmailAdvisor.rank_articles` (advisor.py lines 110-243), parameterised
by the article list, the vectorizer model `sims`, the raw query tokens and
the per-sentence token lists. -/
def rankArticles (articles : List KnowledgeArticle) (sims : List String → List ℚ)
    (raw : List String) (sents0 : List (List String)) : List RankedMatch :=
  let sents := sentencesOf raw sents0
  let qsets := querySetsOf raw sents
  sortDesc (rankedList sents qsets articles (tfidfScores sims raw sents))

/-- Python `dict` lookup on an insertion-ordered association list with
unique keys (first match). -/
def dictGet (d : List (String × String)) (k : String) : Option String :=
  match d.find? fun kv => kv.1 == k with
  | some kv => some kv.2
  | none => none

/-- Python `dict.__setitem__`: replace the binding in place if the key
exists, else append. -/
def dictSet (k v : String) : List (String × String) → List (String × String)
  | [] => [(k, v)]
  | kv :: rest => if kv.1 == k then (k, v) :: rest else kv :: dictSet k v rest

/-- Python dict merge `a | b` / `dict(a); update(b)`: right operand wins,
insertion order of `a` kept for shared keys. -/
def dictMerge (a b : List (String × String)) : List (String × String) :=
  b.foldl (fun d kv => dictSet kv.1 kv.2 d) a

/-- Insertion sort of strings (Python's `sorted`, used for formatting the
missing/default key sets). -/
def insertStr (s : String) : List String → List String
  | [] => [s]
  | t :: ts => if s ≤ t then s :: t :: ts else t :: insertStr s ts

/-- Python `sorted` on a list of strings. -/
def sortStrings : List String → List String
  | [] => []
  | s :: ss => insertStr s (sortStrings ss)

/-- The two tracking sets of `_TemplateContext` (advisor.py lines 30-31),
as deduplicated lists. -/
structure RenderState where
  missing : List String
  usedDefaults : List String
deriving DecidableEq, Repr

/-- Python `set.add`. -/
def addMissing (st : RenderState) (k : String) : RenderState :=
  if k ∈ st.missing then st else { st with missing := st.missing ++ [k] }

/-- Python `set.add`. -/
def addUsedDefault (st : RenderState) (k : String) : RenderState :=
  if k ∈ st.usedDefaults then st else { st with usedDefaults := st.usedDefaults ++ [k] }

/-- The literal text a missing placeholder renders to
(advisor.py line 38): `\x7bkey\x7d`. -/
def placeholderText (k : String) : String := "\x7b" ++ k ++ "\x7d"

/-- `_TemplateContext.__getitem__` (advisor.py lines 33-42) for one
template part.  The combined mapping is `defaults` overridden by
`overrides`; a key found only in `defaults` is recorded as a used default,
a key found nowhere renders to its literal placeholder and is recorded as
missing. -/
def renderPart (defaults overrides : List (String × String)) (st : RenderState) :
    TemplatePart → String × RenderState
  | TemplatePart.lit s => (s, st)
  | TemplatePart.hole k =>
    match dictGet overrides k with
    | some v => (v, st)
    | none =>
      match dictGet defaults k with
      | some v => (v, addUsedDefault st k)
      | none => (placeholderText k, addMissing st k)

/-- `str.format_map` over a decomposed template, threading the context's
tracking sets left to right (Python shares one `_TemplateContext` across
renders). -/
def renderParts (defaults overrides : List (String × String)) (st : RenderState) :
    List TemplatePart → String × RenderState
  | [] => ("", st)
  | p :: ps =>
    let r := renderPart defaults overrides st p
    let rest := renderParts defaults overrides r.2 ps
    (r.1 ++ rest.1, rest.2)

/-- The result of calling the optional reference retriever once: either a
reference list or the message of a raised exception.  The retriever is an
external collaborator (spec §6); a call is modelled by its outcome. -/
def RetrieverFun : Type :=
  String → Option KnowledgeArticle → Int → Except String (List AdvisorReference)

/-- `EmailAdvisor` state after `__init__`: the knowledge base, settings,
merged metadata defaults, retriever, and reference limit
(advisor.py lines 60-108).  `referenceLimit` holds the already-clamped
`max(reference_limit, 0)`. -/
structure EmailAdvisor where
  articles : List KnowledgeArticle
  settings : ConfidenceSettings
  metadataDefaults : List (String × String)
  retriever : Option RetrieverFun
  referenceLimit : Int

/-- `self._known_metadata_keys` (advisor.py lines 86, 107): keys of the
global defaults plus every article's declared metadata keys. -/
def knownKeys (adv : EmailAdvisor) : List String :=
  adv.metadataDefaults.map Prod.fst ++
    adv.articles.foldr (fun a acc => a.metadata.map Prod.fst ++ acc) []

/-- The metadata-extraction merge of `process_query`
(advisor.py lines 246-255): starting from the caller metadata, accept each
fact whose key is known and whose current working value is absent or empty
(Python truthiness of `metadata.get(fact.key)`), recording its reason. -/
def mergeStep (known : List String)
    (md : List (String × String) × List String) (fact : MetadataFact) :
    List (String × String) × List String :=
  if fact.key ∉ known then md
  else
    match dictGet md.1 fact.key with
    | some v =>
      if v ≠ "" then md
      else (dictSet fact.key fact.value md.1, md.2 ++ [fact.reason])
    | none => (dictSet fact.key fact.value md.1, md.2 ++ [fact.reason])

/-- The fold of `mergeStep` over the extracted facts, starting from the
caller-supplied metadata and an empty note list. -/
def mergeFacts (known : List String) (metadata0 : List (String × String))
    (facts : List MetadataFact) : List (String × String) × List String :=
  facts.foldl (mergeStep known) (metadata0, [])

/-- `EmailAdvisor._get_references` (advisor.py lines 370-386): no retriever
or a non-positive limit yields no references and leaves `reasons` alone; a
raising retriever is caught, appending one failure reason; a succeeding
retriever returns its references. -/
def getReferences (adv : EmailAdvisor) (query : String)
    (article : Option KnowledgeArticle) (reasons : List String) :
    List AdvisorReference × List String :=
  match adv.retriever with
  | none => ([], reasons)
  | some f =>
    if adv.referenceLimit ≤ 0 then ([], reasons)
    else
      match f query article adv.referenceLimit with
      | Except.ok refs => (refs, reasons)
      | Except.error e => ([], reasons ++ ["Reference retrieval failed: " ++ e])

/-- Modelled from the spec (§4.8): the default `TemplateEmailComposer`
(its `composers.py` is absent from the sources) returns the rendered
subject/body unchanged when there are no references, and otherwise appends
a formatted references section to the body. -/
def composeEmail (baseSubject baseBody : String)
    (references : List AdvisorReference) : String × String :=
  if references.isEmpty then (baseSubject, baseBody)
  else (baseSubject,
    baseBody ++ "\n\nHelpful resources:\n" ++
      String.intercalate "\n" (references.map fun r => "- " ++ r.label))

/-- `EmailAdvisor._render_article` (advisor.py lines 331-337): render the
subject then the body in one shared context built from the global defaults
overridden by the article defaults, overridden by the working metadata. -/
def renderArticle (adv : EmailAdvisor) (article : KnowledgeArticle)
    (metadata : List (String × String)) : (String × String) × RenderState :=
  let defaults := dictMerge adv.metadataDefaults article.metadata
  let rs := renderParts defaults metadata ⟨[], []⟩ article.subjectParts
  let rb := renderParts defaults metadata rs.2 article.bodyParts
  ((rs.1, rb.1), rb.2)

/-- Python's `f"{q:.2f}"` on a confidence, with exact-rational
round-half-up in place of binary-float rounding (no claim depends on the
rounding of a tie). -/
def fmt2 (q : ℚ) : String :=
  let cents : Int := (q * 100 + 1 / 2 : ℚ).floor
  let n := cents.natAbs
  (if cents < 0 then "-" else "") ++ toString (n / 100) ++ "." ++
    (if n % 100 < 10 then "0" else "") ++ toString (n % 100)

/-- advisor.py lines 262-264. -/
def topMatchReason (best : RankedMatch) : String :=
  "Top match '" ++ best.subject ++ "' scored " ++ fmt2 best.confidence ++ "."

/-- advisor.py line 272. -/
def ambiguousReason : String :=
  "Multiple templates scored similarly high; routing to advisors for review."

/-- advisor.py line 278. -/
def lowConfidenceReason : String :=
  "No article exceeded the review confidence threshold; escalating to advising team."

/-- advisor.py line 284. -/
def missingArticleReason : String :=
  "Matched article could not be found in the knowledge base."

/-- advisor.py line 305. -/
def belowAutoSendReason : String :=
  "Confidence below the auto-send threshold; sending draft for review."

/-- advisor.py lines 308-311. -/
def missingKeysReason (keys : List String) : String :=
  "Template placeholders missing values: " ++
    String.intercalate ", " (sortStrings keys) ++ ". Advisor review required."

/-- advisor.py lines 313-316. -/
def defaultsUsedReason (keys : List String) : String :=
  "Default values used for: " ++ String.intercalate ", " (sortStrings keys) ++
    ". Update metadata if more specific details are available."

/-- advisor.py line 355. -/
def noTemplateReason : String := "Unable to determine an appropriate template."

/-- The fixed fallback body (advisor.py lines 348-353) as template parts. -/
def fallbackBodyParts : List TemplatePart :=
  [TemplatePart.lit "Hello ", TemplatePart.hole "student_name",
   TemplatePart.lit ",\n\nThanks for contacting the advising office. Your question has been routed to an advisor for a personal response. We will review the details and get back to you within one business day.\n\nBest,\nAcademic Advising Team"]

/-- `EmailAdvisor._fallback_response` (advisor.py lines 339-368). -/
def fallbackResponse (adv : EmailAdvisor) (query : String)
    (metadata : List (String × String)) (reasons : List String)
    (matchList : List RankedMatch) : AdvisorResponse :=
  let body := (renderParts adv.metadataDefaults metadata ⟨[], []⟩ fallbackBodyParts).1
  let reasons1 := if reasons.isEmpty then [noTemplateReason] else reasons
  let gr := getReferences adv query none reasons1
  { subject := "Advising team follow-up required"
    body := body
    auto_send := false
    confidence := match matchList with | [] => 0 | m :: _ => m.confidence
    decision := "needs_review"
    article_id := none
    follow_up_questions := []
    reasons := gr.2
    ranked_matches := matchList
    references := gr.1 }

/-- The ambiguity test of advisor.py lines 265-270: a second match exists,
its confidence reaches the review threshold, and the gap to the best is
below the ambiguity gap. -/
def ambiguousBool (settings : ConfidenceSettings) (best : RankedMatch) :
    List RankedMatch → Bool
  | second :: _ =>
    decide (second.confidence ≥ settings.review_threshold) &&
      decide (best.confidence - second.confidence < settings.ambiguity_gap)
  | [] => false

/-- The rendered tail of `process_query` (advisor.py lines 287-329), after
the best match passed every gate and `article` was found. -/
def renderedResponse (adv : EmailAdvisor) (query : String)
    (metadata : List (String × String)) (notes : List String)
    (matchList : List RankedMatch) (best : RankedMatch)
    (article : KnowledgeArticle) : AdvisorResponse :=
  let r := renderArticle adv article metadata
  let st := r.2
  let gr := getReferences adv query (some article) [topMatchReason best]
  let composed := composeEmail r.1.1 r.1.2 gr.1
  let autoSend :=
    decide (best.confidence ≥ adv.settings.auto_send_threshold) && st.missing.isEmpty
  let reasons2 :=
    if autoSend then gr.2
    else
      gr.2 ++
        (if decide (best.confidence < adv.settings.auto_send_threshold)
          then [belowAutoSendReason] else []) ++
        (if st.missing.isEmpty then [] else [missingKeysReason st.missing])
  let reasons3 :=
    reasons2 ++ (if st.usedDefaults.isEmpty then [] else [defaultsUsedReason st.usedDefaults])
  { subject := composed.1
    body := composed.2
    auto_send := autoSend
    confidence := best.confidence
    decision := if autoSend then "auto_send" else "needs_review"
    article_id := some article.id
    follow_up_questions := article.followUps
    reasons := reasons3 ++ notes
    ranked_matches := matchList
    references := gr.1 }

/-- `KnowledgeBase.get` — modelled from the spec (§3: "supports lookup by
id"; `knowledge_base.py` is absent from the sources): the first article
with the given identifier (identifiers are unique). -/
def kbGet (articles : List KnowledgeArticle) (id : String) : Option KnowledgeArticle :=
  articles.find? fun a => a.id == id

/-- `EmailAdvisor.process_query` (advisor.py lines 245-329).  `facts`
stands for the absent `MetadataExtractor.extract(query)` result (spec
§4.6), `sims` for the vectorizer, `raw`/`sents0` for the tokenised query
as in `rankArticles`. -/
def processQuery (adv : EmailAdvisor) (sims : List String → List ℚ)
    (query : String) (raw : List String) (sents0 : List (List String))
    (facts : List MetadataFact) (metadata0 : List (String × String)) :
    AdvisorResponse :=
  let md := mergeFacts (knownKeys adv) metadata0 facts
  match rankArticles adv.articles sims raw sents0 with
  | [] => fallbackResponse adv query md.1 md.2 []
  | best :: rest =>
    let reasons := [topMatchReason best]
    if ambiguousBool adv.settings best rest then
      fallbackResponse adv query md.1 (reasons ++ [ambiguousReason] ++ md.2) (best :: rest)
    else if decide (best.confidence < adv.settings.review_threshold) then
      fallbackResponse adv query md.1 (reasons ++ [lowConfidenceReason] ++ md.2) (best :: rest)
    else
      match kbGet adv.articles best.article_id with
      | none =>
        fallbackResponse adv query md.1 (reasons ++ [missingArticleReason] ++ md.2)
          (best :: rest)
      | some article => renderedResponse adv query md.1 md.2 (best :: rest) best article


/-- The constructor-default metadata defaults of `EmailAdvisor.__init__`
(advisor.py lines 72-79). -/
def defaultMetadataDefaults : List (String × String) :=
  [("student_name", "there"), ("term", "the upcoming term"),
   ("registration_deadline", "the published registration deadline"),
   ("withdrawal_deadline", "the posted withdrawal deadline"),
   ("financial_aid_phone", "(555) 123-4567"),
   ("financial_aid_email", "finaid@university.edu")]

/-- Concrete settings used to exercise the theorems. -/
def sampleSettings : ConfidenceSettings :=
  { review_threshold := 0.6, auto_send_threshold := 0.9, ambiguity_gap := 0.05 }

/-- An advisor over an empty knowledge base. -/
def emptyAdvisor : EmailAdvisor :=
  { articles := [], settings := sampleSettings,
    metadataDefaults := defaultMetadataDefaults, retriever := none,
    referenceLimit := 3 }

/-- An advisor over an empty knowledge base whose reference retriever
always raises. -/
def failingAdvisor : EmailAdvisor :=
  { articles := [], settings := sampleSettings,
    metadataDefaults := defaultMetadataDefaults,
    retriever := some fun _ _ _ => Except.error "boom",
    referenceLimit := 3 }


/-- An article whose body template references a key that no default or
metadata supplies. -/
def missingKeyArticle : KnowledgeArticle :=
  { id := "fees"
    subject := "Fee deadlines"
    subjectParts := [TemplatePart.lit "Fee deadlines"]
    bodyParts := [TemplatePart.lit "Ask ", TemplatePart.hole "advisor_name",
      TemplatePart.lit " about fees."]
    metadata := []
    followUps := []
    utteranceTokens := [["fee", "deadline"]]
    docTokens := ["fee", "deadline"]
    categoryTokensRaw := [] }

/-- An advisor whose single article renders with a missing placeholder. -/
def missingKeyAdvisor : EmailAdvisor :=
  { articles := [missingKeyArticle], settings := sampleSettings,
    metadataDefaults := defaultMetadataDefaults, retriever := none,
    referenceLimit := 3 }

/-- A concrete article used to exercise the theorems on explicit inputs. -/
def sampleArticle : KnowledgeArticle :=
  { id := "drop-course"
    subject := "Dropping a course"
    subjectParts := [TemplatePart.lit "Dropping a course"]
    bodyParts := [TemplatePart.lit "Hello ", TemplatePart.hole "student_name",
      TemplatePart.lit ", withdraw by ", TemplatePart.hole "withdrawal_deadline",
      TemplatePart.lit "."]
    metadata := []
    followUps := ["Need the form?"]
    utteranceTokens := [["drop", "class"]]
    docTokens := ["drop", "class", "registration"]
    categoryTokensRaw := ["registration"] }

lemma max_absorb (c a b : ℚ) (h : b ≤ a) : max (max c a) b = max c a :=
  max_eq_left (le_trans h (le_max_right c a))

lemma floorsChain_eq_spec (c bus coverage catov : ℚ) :
    applyFloorsChain c bus coverage catov = applyFloorsSpec c bus coverage catov := by
  have h9285 : ∀ x : ℚ, max (max x 0.92) 0.85 = max x 0.92 :=
    fun x => max_absorb x 0.92 0.85 (by norm_num)
  have h9278 : ∀ x : ℚ, max (max x 0.92) 0.78 = max x 0.92 :=
    fun x => max_absorb x 0.92 0.78 (by norm_num)
  have h8578 : ∀ x : ℚ, max (max x 0.85) 0.78 = max x 0.85 :=
    fun x => max_absorb x 0.85 0.78 (by norm_num)
  have h8585 : ∀ x : ℚ, max (max x 0.85) 0.85 = max x 0.85 :=
    fun x => max_absorb x 0.85 0.85 (by norm_num)
  unfold applyFloorsChain applyFloorsSpec
  split_ifs <;>
    first
      | rfl
      | (simp only [h9285, h9278, h8578, h8585])

lemma clampedBase_bounds (tfidf bus coverage catov : ℚ) :
    0.05 ≤ clampedBase tfidf bus coverage catov ∧
      clampedBase tfidf bus coverage catov ≤ 0.97 := by
  unfold clampedBase
  constructor
  · exact le_min (le_max_right _ _) (by norm_num)
  · exact min_le_right _ _

lemma applyFloorsChain_bounds (c bus coverage catov : ℚ)
    (hl : 0.05 ≤ c) (hu : c ≤ 0.97) :
    0.05 ≤ applyFloorsChain c bus coverage catov ∧
      applyFloorsChain c bus coverage catov ≤ 0.97 := by
  unfold applyFloorsChain
  split_ifs <;>
    refine ⟨?_, ?_⟩ <;>
      simp only [le_max_iff, max_le_iff] <;> norm_num <;> linarith

lemma blend_false_bounds (tfidf bus bqc buc catov : ℚ) :
    0.05 ≤ blend false tfidf bus bqc buc catov ∧
      blend false tfidf bus bqc buc catov ≤ 0.97 := by
  unfold blend
  simp only [Bool.false_eq_true, if_false]
  exact applyFloorsChain_bounds _ _ _ _
    (clampedBase_bounds tfidf bus ((bqc + buc) / 2) catov).1
    (clampedBase_bounds tfidf bus ((bqc + buc) / 2) catov).2

lemma blend_true_eq_one (tfidf bus bqc buc catov : ℚ) :
    blend true tfidf bus bqc buc catov = 1 := rfl

lemma scoreArticle_eq_blend (sents : List (List String))
    (qsets : List (Finset String × Finset String)) (a : KnowledgeArticle) (tfidf : ℚ) :
    scoreArticle sents qsets a tfidf =
      blend (exactMatch a.utteranceTokens sents) tfidf
        (lexStats qsets a.utteranceTokens).bestSim
        (lexStats qsets a.utteranceTokens).bestQCov
        (lexStats qsets a.utteranceTokens).bestUCov
        (overlaps qsets (augmentTokens a.docTokens).toFinset
          (augmentTokens a.categoryTokensRaw).toFinset).2 := rfl

lemma scoreArticle_exact (sents : List (List String))
    (qsets : List (Finset String × Finset String)) (a : KnowledgeArticle) (tfidf : ℚ)
    (hex : exactMatch a.utteranceTokens sents = true) :
    scoreArticle sents qsets a tfidf = 1 := by
  rw [scoreArticle_eq_blend, hex, blend_true_eq_one]

lemma scoreArticle_nonexact_bounds (sents : List (List String))
    (qsets : List (Finset String × Finset String)) (a : KnowledgeArticle) (tfidf : ℚ)
    (hex : exactMatch a.utteranceTokens sents = false) :
    0.05 ≤ scoreArticle sents qsets a tfidf ∧
      scoreArticle sents qsets a tfidf ≤ 0.97 := by
  rw [scoreArticle_eq_blend, hex]
  exact blend_false_bounds _ _ _ _ _

lemma scoreArticle_bounds (sents : List (List String))
    (qsets : List (Finset String × Finset String)) (a : KnowledgeArticle) (tfidf : ℚ) :
    0.05 ≤ scoreArticle sents qsets a tfidf ∧ scoreArticle sents qsets a tfidf ≤ 1 := by
  cases hex : exactMatch a.utteranceTokens sents with
  | false =>
    have h := scoreArticle_nonexact_bounds sents qsets a tfidf hex
    exact ⟨h.1, le_trans h.2 (by norm_num)⟩
  | true => rw [scoreArticle_exact sents qsets a tfidf hex]; norm_num

lemma mem_insertDesc {y x : RankedMatch} {l : List RankedMatch} :
    y ∈ insertDesc x l ↔ y = x ∨ y ∈ l := by
  induction l with
  | nil => simp [insertDesc]
  | cons z zs ih =>
    simp only [insertDesc]
    split_ifs with h
    · simp only [List.mem_cons, ih]
      tauto
    · simp only [List.mem_cons]

lemma mem_sortDesc {y : RankedMatch} {l : List RankedMatch} :
    y ∈ sortDesc l ↔ y ∈ l := by
  induction l with
  | nil => simp [sortDesc]
  | cons x xs ih =>
    simp only [sortDesc, mem_insertDesc, ih, List.mem_cons]

lemma insertDesc_pairwise {x : RankedMatch} {l : List RankedMatch}
    (h : l.Pairwise fun a b => b.confidence ≤ a.confidence) :
    (insertDesc x l).Pairwise fun a b => b.confidence ≤ a.confidence := by
  induction l with
  | nil => simp [insertDesc]
  | cons y ys ih =>
    rw [List.pairwise_cons] at h
    simp only [insertDesc]
    split_ifs with hxy
    · rw [List.pairwise_cons]
      refine ⟨fun z hz => ?_, ih h.2⟩
      rcases mem_insertDesc.mp hz with rfl | hz
      · exact le_of_lt hxy
      · exact h.1 z hz
    · rw [List.pairwise_cons]
      refine ⟨fun z hz => ?_, List.pairwise_cons.mpr h⟩
      rcases List.mem_cons.mp hz with rfl | hz
      · exact le_of_not_lt hxy
      · exact le_trans (h.1 z hz) (le_of_not_lt hxy)

lemma sortDesc_pairwise (l : List RankedMatch) :
    (sortDesc l).Pairwise fun a b => b.confidence ≤ a.confidence := by
  induction l with
  | nil => simp [sortDesc]
  | cons x xs ih => exact insertDesc_pairwise ih

lemma filter_insertDesc (p : RankedMatch → Bool)
    (hp : ∀ a b : RankedMatch, p a = true → a.confidence < b.confidence → p b = false)
    (x : RankedMatch) (l : List RankedMatch) :
    (insertDesc x l).filter p = (x :: l).filter p := by
  induction l with
  | nil => rfl
  | cons y ys ih =>
    simp only [insertDesc]
    split_ifs with hxy
    · cases hpx : p x with
      | true =>
        have hpy : p y = false := hp x y hpx hxy
        simp only [List.filter_cons, hpx, hpy, if_true, if_false] at *
        simpa [List.filter_cons, hpy] using ih
      | false =>
        simp only [List.filter_cons, hpx, if_false] at *
        simp [List.filter_cons, ih]
    · rfl

lemma filter_sortDesc (p : RankedMatch → Bool)
    (hp : ∀ a b : RankedMatch, p a = true → a.confidence < b.confidence → p b = false)
    (l : List RankedMatch) : (sortDesc l).filter p = l.filter p := by
  induction l with
  | nil => rfl
  | cons x xs ih =>
    rw [sortDesc, filter_insertDesc p hp]
    simp only [List.filter_cons]
    rw [ih]

lemma insertDesc_head (x : RankedMatch) (l : List RankedMatch)
    (h : ∀ y ∈ l, y.confidence ≤ x.confidence) : insertDesc x l = x :: l := by
  cases l with
  | nil => rfl
  | cons y ys =>
    simp only [insertDesc]
    rw [if_neg (not_lt.mpr (h y (List.mem_cons_self y ys)))]

lemma sortDesc_head (x : RankedMatch) (l1 l2 : List RankedMatch)
    (h1 : ∀ y ∈ l1, y.confidence < x.confidence)
    (h2 : ∀ y ∈ l2, y.confidence ≤ x.confidence) :
    (sortDesc (l1 ++ x :: l2)).head? = some x := by
  induction l1 with
  | nil =>
    simp only [List.nil_append, sortDesc]
    rw [insertDesc_head x (sortDesc l2) fun y hy => h2 y (mem_sortDesc.mp hy)]
    rfl
  | cons a t ih =>
    have ht : ∀ y ∈ t, y.confidence < x.confidence :=
      fun y hy => h1 y (List.mem_cons_of_mem a hy)
    simp only [List.cons_append, sortDesc]
    obtain ⟨r, hr⟩ : ∃ r, sortDesc (t ++ x :: l2) = x :: r := by
      rcases hs : sortDesc (t ++ x :: l2) with _ | ⟨z, r⟩
      · exact absurd (congrArg List.head? hs) (by rw [ih ht]; simp)
      · have := ih ht
        rw [hs] at this
        simp only [List.head?] at this
        exact ⟨r, by rw [Option.some_inj] at this; rw [this]⟩
    show (insertDesc a (sortDesc (t ++ x :: l2))).head? = some x
    rw [hr]
    simp only [insertDesc]
    rw [if_pos (h1 a (List.mem_cons_self a t))]
    rfl

lemma mem_rankedList (sents : List (List String))
    (qsets : List (Finset String × Finset String)) :
    ∀ (arts : List KnowledgeArticle) (ss : List ℚ) (y : RankedMatch),
      y ∈ rankedList sents qsets arts ss →
      ∃ a tf, a ∈ arts ∧ y = ⟨a.id, a.subject, scoreArticle sents qsets a tf⟩ := by
  intro arts
  induction arts with
  | nil => intro ss y h; simp [rankedList] at h
  | cons a as ih =>
    intro ss y h
    cases ss with
    | nil => simp [rankedList] at h
    | cons s sstail =>
      rw [rankedList] at h
      rcases List.mem_cons.mp h with rfl | h
      · exact ⟨a, s, List.mem_cons_self a as, rfl⟩
      · obtain ⟨b, tf, hb, hy⟩ := ih sstail y h
        exact ⟨b, tf, List.mem_cons_of_mem a hb, hy⟩

lemma tfidfScores_length (sims : List String → List ℚ) (raw : List String)
    (sents : List (List String)) (n : ℕ) (hs : ∀ ts, (sims ts).length = n) :
    (tfidfScores sims raw sents).length = n := by
  unfold tfidfScores
  have key : ∀ (l : List (List String)) (sc : List ℚ), sc.length = n →
      (l.foldl (fun sc ts => List.zipWith max sc (sims (augmentTokens ts))) sc).length
        = n := by
    intro l
    induction l with
    | nil => intro sc h; exact h
    | cons t ts ih =>
      intro sc h
      apply ih
      rw [List.length_zipWith, h, hs]
      exact min_self n
  exact key _ _ (hs _)

lemma rankedList_exact_decomp (sents : List (List String))
    (qsets : List (Finset String × Finset String)) (a : KnowledgeArticle)
    (hex : exactMatch a.utteranceTokens sents = true) :
    ∀ (pre post : List KnowledgeArticle) (scores : List ℚ),
      scores.length = (pre ++ a :: post).length →
      (∀ b ∈ pre, exactMatch b.utteranceTokens sents = false) →
      ∃ l1 l2,
        rankedList sents qsets (pre ++ a :: post) scores =
          l1 ++ (⟨a.id, a.subject, 1⟩ : RankedMatch) :: l2 ∧
        (∀ y ∈ l1, y.confidence < 1) ∧ (∀ y ∈ l2, y.confidence ≤ 1) := by
  intro pre
  induction pre with
  | nil =>
    intro post scores hlen hpre
    cases scores with
    | nil => simp at hlen
    | cons s ss =>
      refine ⟨[], rankedList sents qsets post ss, ?_, by simp, ?_⟩
      · simp only [List.nil_append, rankedList]
        rw [scoreArticle_exact sents qsets a s hex]
      · intro y hy
        obtain ⟨b, tf, _, rfl⟩ := mem_rankedList sents qsets post ss y hy
        exact (scoreArticle_bounds sents qsets b tf).2
  | cons b pre ih =>
    intro post scores hlen hpre
    cases scores with
    | nil => simp at hlen
    | cons s ss =>
      have hlen' : ss.length = (pre ++ a :: post).length := by simpa using hlen
      obtain ⟨l1, l2, heq, h1, h2⟩ :=
        ih post ss hlen' fun x hx => hpre x (List.mem_cons_of_mem b hx)
      refine ⟨⟨b.id, b.subject, scoreArticle sents qsets b s⟩ :: l1, l2, ?_, ?_, h2⟩
      · show (⟨b.id, b.subject, scoreArticle sents qsets b s⟩ : RankedMatch) ::
              rankedList sents qsets (pre ++ a :: post) ss =
            ⟨b.id, b.subject, scoreArticle sents qsets b s⟩ ::
              (l1 ++ (⟨a.id, a.subject, 1⟩ : RankedMatch) :: l2)
        rw [heq]
      · intro y hy
        rcases List.mem_cons.mp hy with rfl | hy
        · have hb := hpre b (List.mem_cons_self b pre)
          have hub := (scoreArticle_nonexact_bounds sents qsets b s hb).2
          show scoreArticle sents qsets b s < 1
          calc scoreArticle sents qsets b s ≤ 0.97 := hub
            _ < 1 := by norm_num
        · exact h1 y hy

/-- C8: the claim says the synonym table is symmetric for every pair of
tokens.  It is not: `"book"` maps to `"schedule"`, but `"schedule"` maps
only to `\x7b"appointment", "meeting"\x7d`, which does not contain
`"book"`. -/
theorem tokenSynonyms_not_symmetric :
    "schedule" ∈ tokenSynonyms "book" ∧ "book" ∉ tokenSynonyms "schedule" := by
  decide

/-- C8 (amended): the synonym table is not symmetric in general, but the
two pairs the spec cites as examples — register↔enroll and drop↔withdraw —
are mutually listed. -/
theorem tokenSynonyms_cited_pairs_symmetric :
    ("enroll" ∈ tokenSynonyms "register" ∧ "register" ∈ tokenSynonyms "enroll") ∧
      ("withdraw" ∈ tokenSynonyms "drop" ∧ "drop" ∈ tokenSynonyms "withdraw") := by
  decide

/-- C2: for an article without an exact match, the `elif`-chained floor
application of advisor.py lines 229-236 computes the same confidence as the
spec's reading: the maximum of the clamped base confidence and every floor
value whose predicate holds, the four predicates taken independently. -/
theorem floor_rules_equiv (sents : List (List String))
    (qsets : List (Finset String × Finset String)) (a : KnowledgeArticle) (tfidf : ℚ)
    (hex : exactMatch a.utteranceTokens sents = false) :
    scoreArticle sents qsets a tfidf =
      applyFloorsSpec
        (clampedBase tfidf (lexStats qsets a.utteranceTokens).bestSim
          (((lexStats qsets a.utteranceTokens).bestQCov +
              (lexStats qsets a.utteranceTokens).bestUCov) / 2)
          (overlaps qsets (augmentTokens a.docTokens).toFinset
              (augmentTokens a.categoryTokensRaw).toFinset).2)
        (lexStats qsets a.utteranceTokens).bestSim
        (((lexStats qsets a.utteranceTokens).bestQCov +
            (lexStats qsets a.utteranceTokens).bestUCov) / 2)
        (overlaps qsets (augmentTokens a.docTokens).toFinset
            (augmentTokens a.categoryTokensRaw).toFinset).2 := by
  rw [scoreArticle_eq_blend, hex]
  unfold blend
  simp only [Bool.false_eq_true, if_false]
  exact floorsChain_eq_spec _ _ _ _

theorem floor_rules_equiv_witness :
    exactMatch sampleArticle.utteranceTokens [["transcript"]] = false ∧
      scoreArticle [["transcript"]] [] sampleArticle 0 =
        applyFloorsSpec
          (clampedBase 0 (lexStats [] sampleArticle.utteranceTokens).bestSim
            (((lexStats [] sampleArticle.utteranceTokens).bestQCov +
                (lexStats [] sampleArticle.utteranceTokens).bestUCov) / 2)
            (overlaps [] (augmentTokens sampleArticle.docTokens).toFinset
                (augmentTokens sampleArticle.categoryTokensRaw).toFinset).2)
          (lexStats [] sampleArticle.utteranceTokens).bestSim
          (((lexStats [] sampleArticle.utteranceTokens).bestQCov +
              (lexStats [] sampleArticle.utteranceTokens).bestUCov) / 2)
          (overlaps [] (augmentTokens sampleArticle.docTokens).toFinset
              (augmentTokens sampleArticle.categoryTokensRaw).toFinset).2 :=
  ⟨by decide, floor_rules_equiv [["transcript"]] [] sampleArticle 0 (by decide)⟩

/-- C10: without an exact match the blended confidence always lands in
[0.05, 0.97]; a confidence above 0.97 (in particular 1.0) can only arise
from an exact raw-token match, in which case it is exactly 1; every ranked
article's confidence lies in [0.05, 1]; and with an auto-send threshold
above 0.97, a response can auto-send only when some article of the
knowledge base had an exact raw-token match (and then with confidence
exactly 1). -/
theorem confidence_window :
    (∀ (sents : List (List String)) (qsets : List (Finset String × Finset String))
        (a : KnowledgeArticle) (tfidf : ℚ),
      (exactMatch a.utteranceTokens sents = false →
        0.05 ≤ scoreArticle sents qsets a tfidf ∧
          scoreArticle sents qsets a tfidf ≤ 0.97) ∧
      (0.97 < scoreArticle sents qsets a tfidf →
        exactMatch a.utteranceTokens sents = true ∧
          scoreArticle sents qsets a tfidf = 1)) ∧
    (∀ (articles : List KnowledgeArticle) (sims : List String → List ℚ)
        (raw : List String) (sents0 : List (List String)),
      ∀ m ∈ rankArticles articles sims raw sents0,
        0.05 ≤ m.confidence ∧ m.confidence ≤ 1) ∧
    ∀ (adv : EmailAdvisor) (sims : List String → List ℚ) (query : String)
        (raw : List String) (sents0 : List (List String))
        (facts : List MetadataFact) (metadata0 : List (String × String)),
      0.97 < adv.settings.auto_send_threshold →
      (processQuery adv sims query raw sents0 facts metadata0).auto_send = true →
      ∃ a, a ∈ adv.articles ∧
        exactMatch a.utteranceTokens (sentencesOf raw sents0) = true ∧
        (processQuery adv sims query raw sents0 facts metadata0).confidence = 1 := by
  refine ⟨?_, ?_, ?_⟩
  · intro sents qsets a tfidf
    refine ⟨scoreArticle_nonexact_bounds sents qsets a tfidf, fun hgt => ?_⟩
    cases hex : exactMatch a.utteranceTokens sents with
    | false =>
      have := (scoreArticle_nonexact_bounds sents qsets a tfidf hex).2
      linarith
    | true => exact ⟨rfl, scoreArticle_exact sents qsets a tfidf hex⟩
  · intro articles sims raw sents0 m hm
    simp only [rankArticles] at hm
    obtain ⟨a, tf, _, rfl⟩ :=
      mem_rankedList _ _ _ _ m (mem_sortDesc.mp hm)
    exact scoreArticle_bounds _ _ a tf
  · intro adv sims query raw sents0 facts metadata0 ht
    simp only [processQuery]
    cases hm : rankArticles adv.articles sims raw sents0 with
    | nil => intro hauto; exact absurd hauto (by simp [fallbackResponse])
    | cons best rest =>
      dsimp only
      split_ifs with h1 h2
      · intro hauto; exact absurd hauto (by simp [fallbackResponse])
      · intro hauto; exact absurd hauto (by simp [fallbackResponse])
      · cases hget : kbGet adv.articles best.article_id with
        | none => intro hauto; exact absurd hauto (by simp [fallbackResponse])
        | some article =>
          intro hauto
          have hth : adv.settings.auto_send_threshold ≤ best.confidence := by
            simp only [renderedResponse, Bool.and_eq_true, decide_eq_true_eq] at hauto
            exact hauto.1
          have hb : best ∈ rankArticles adv.articles sims raw sents0 := by
            rw [hm]; exact List.mem_cons_self best rest
          simp only [rankArticles] at hb
          obtain ⟨a, tf, ha, heq⟩ :=
            mem_rankedList _ _ _ _ best (mem_sortDesc.mp hb)
          have hgt : 0.97 < best.confidence := lt_of_lt_of_le ht hth
          cases hex : exactMatch a.utteranceTokens (sentencesOf raw sents0) with
          | false =>
            have hub := (scoreArticle_nonexact_bounds (sentencesOf raw sents0)
              (querySetsOf raw (sentencesOf raw sents0)) a tf hex).2
            have hce : best.confidence = scoreArticle (sentencesOf raw sents0)
                (querySetsOf raw (sentencesOf raw sents0)) a tf := by rw [heq]
            rw [hce] at hgt
            exact absurd hgt (not_lt.mpr hub)
          | true =>
            refine ⟨a, ha, hex, ?_⟩
            show best.confidence = 1
            rw [heq]
            exact scoreArticle_exact _ _ a tf hex

/-- C4: `rank_articles` output is sorted by non-increasing confidence, and
for every confidence value the entries carrying it appear in the same
relative order as in the unsorted per-article list, which is in
knowledge-base order (stability of the sort of advisor.py line 242). -/
theorem ranked_matches_sorted_stable (articles : List KnowledgeArticle)
    (sims : List String → List ℚ) (raw : List String) (sents0 : List (List String)) :
    (rankArticles articles sims raw sents0).Pairwise
        (fun a b => b.confidence ≤ a.confidence) ∧
      ∀ c : ℚ,
        (rankArticles articles sims raw sents0).filter
            (fun m => decide (m.confidence = c)) =
          (rankedList (sentencesOf raw sents0)
              (querySetsOf raw (sentencesOf raw sents0)) articles
              (tfidfScores sims raw (sentencesOf raw sents0))).filter
            (fun m => decide (m.confidence = c)) := by
  constructor
  · exact sortDesc_pairwise _
  · intro c
    apply filter_sortDesc
    intro x y hx hxy
    simp only [decide_eq_true_eq] at hx
    exact decide_eq_false (hx ▸ ne_of_gt hxy)

/-- C1: if some non-empty sentence segment of the query equals, token for
token, some non-empty utterance of article `a`, then `a`'s confidence is
exactly 1, and when no article before `a` in knowledge-base order also has
an exact match, `a`'s `RankedMatch` is the first element of the ranked
list (the stable sort keeps the earliest exact match first; `hsims`
states that the vectorizer returns one score per article). -/
theorem exact_match_is_top (pre post : List KnowledgeArticle) (a : KnowledgeArticle)
    (sims : List String → List ℚ) (raw : List String) (sents0 : List (List String))
    (hsims : ∀ ts, (sims ts).length = (pre ++ a :: post).length)
    (hex : exactMatch a.utteranceTokens (sentencesOf raw sents0) = true)
    (hpre : ∀ b ∈ pre, exactMatch b.utteranceTokens (sentencesOf raw sents0) = false) :
    (∀ tfidf : ℚ, scoreArticle (sentencesOf raw sents0)
        (querySetsOf raw (sentencesOf raw sents0)) a tfidf = 1) ∧
      (rankArticles (pre ++ a :: post) sims raw sents0).head? =
        some (⟨a.id, a.subject, 1⟩ : RankedMatch) := by
  constructor
  · intro tfidf
    exact scoreArticle_exact _ _ a tfidf hex
  · have hlen : (tfidfScores sims raw (sentencesOf raw sents0)).length =
        (pre ++ a :: post).length :=
      tfidfScores_length sims raw (sentencesOf raw sents0) _ hsims
    obtain ⟨l1, l2, heq, h1, h2⟩ :=
      rankedList_exact_decomp (sentencesOf raw sents0)
        (querySetsOf raw (sentencesOf raw sents0)) a hex pre post _ hlen hpre
    simp only [rankArticles]
    rw [heq]
    exact sortDesc_head _ l1 l2 h1 h2

theorem exact_match_is_top_witness :
    (∀ ts : List String,
        ((fun _ : List String => [(0 : ℚ)]) ts).length =
          (([] : List KnowledgeArticle) ++ sampleArticle :: []).length) ∧
      exactMatch sampleArticle.utteranceTokens (sentencesOf ["drop", "class"] []) = true ∧
      (rankArticles (([] : List KnowledgeArticle) ++ sampleArticle :: [])
          (fun _ => [0]) ["drop", "class"] []).head? =
        some (⟨sampleArticle.id, sampleArticle.subject, 1⟩ : RankedMatch) :=
  ⟨fun _ => rfl, by decide,
    (exact_match_is_top [] [] sampleArticle (fun _ => [0]) ["drop", "class"] []
      (fun _ => rfl) (by decide) (by simp)).2⟩

theorem confidence_window_witness :
    exactMatch sampleArticle.utteranceTokens [["transcript"]] = false ∧
      0.05 ≤ scoreArticle [["transcript"]] [] sampleArticle 0 ∧
      scoreArticle [["transcript"]] [] sampleArticle 0 ≤ 0.97 :=
  ⟨by decide,
    ((confidence_window.1 [["transcript"]] [] sampleArticle 0).1 (by decide)).1,
    ((confidence_window.1 [["transcript"]] [] sampleArticle 0).1 (by decide)).2⟩

lemma renderParts_placeholder (defaults overrides : List (String × String)) (k : String)
    (hko : dictGet overrides k = none) (hkd : dictGet defaults k = none) :
    ∀ (l1 l2 : List TemplatePart) (st : RenderState),
      ∃ p q, (renderParts defaults overrides st (l1 ++ TemplatePart.hole k :: l2)).1 =
        p ++ placeholderText k ++ q := by
  intro l1
  induction l1 with
  | nil =>
    intro l2 st
    refine ⟨"", (renderParts defaults overrides (addMissing st k) l2).1, ?_⟩
    show (renderParts defaults overrides st (TemplatePart.hole k :: l2)).1 =
      "" ++ placeholderText k ++ _
    simp only [renderParts, renderPart, hko, hkd]
    rw [String.empty_append]
  | cons p ps ih =>
    intro l2 st
    obtain ⟨x, y, hxy⟩ :=
      ih l2 (renderPart defaults overrides st p).2
    refine ⟨(renderPart defaults overrides st p).1 ++ x, y, ?_⟩
    show (renderPart defaults overrides st p).1 ++
        (renderParts defaults overrides (renderPart defaults overrides st p).2
          (ps ++ TemplatePart.hole k :: l2)).1 =
      (renderPart defaults overrides st p).1 ++ x ++ placeholderText k ++ y
    rw [hxy, String.append_assoc, String.append_assoc, String.append_assoc]

lemma dictGet_cons (kv : String × String) (d : List (String × String)) (k : String) :
    dictGet (kv :: d) k = if kv.1 == k then some kv.2 else dictGet d k := by
  simp only [dictGet, List.find?]
  cases h : kv.1 == k with
  | true => simp [h]
  | false => simp [h]

lemma dictGet_dictSet_self (k v : String) (d : List (String × String)) :
    dictGet (dictSet k v d) k = some v := by
  induction d with
  | nil => simp [dictSet, dictGet_cons]
  | cons kv rest ih =>
    simp only [dictSet]
    cases h : kv.1 == k with
    | true => simp [dictGet_cons]
    | false => simp [h, dictGet_cons, ih]

lemma dictGet_dictSet_ne (k v k' : String) (h : k ≠ k') (d : List (String × String)) :
    dictGet (dictSet k v d) k' = dictGet d k' := by
  have hkk : (k == k') = false := beq_eq_false_iff_ne.mpr h
  induction d with
  | nil => simp [dictSet, dictGet_cons, hkk, dictGet, List.find?]
  | cons kv rest ih =>
    simp only [dictSet]
    cases hkv : kv.1 == k with
    | true =>
      have hkv' : (kv.1 == k') = false := by
        rw [show kv.1 = k from eq_of_beq hkv]
        exact hkk
      simp [dictGet_cons, hkk, hkv']
    | false => simp [dictGet_cons, ih]

lemma mergeStep_fst_ignores_notes (known : List String) (f : MetadataFact)
    (d : List (String × String)) (ns ns' : List String) :
    (mergeStep known (d, ns) f).1 = (mergeStep known (d, ns') f).1 := by
  unfold mergeStep
  split_ifs with h
  · cases hv : dictGet d f.key with
    | none => simp [hv]
    | some v => simp only [hv]; split_ifs <;> rfl
  · rfl

lemma foldl_mergeStep_fst (known : List String) :
    ∀ (fs : List MetadataFact) (d : List (String × String)) (ns : List String),
      (fs.foldl (mergeStep known) (d, ns)).1 = (mergeFacts known d fs).1 := by
  intro fs
  induction fs with
  | nil => intro d ns; rfl
  | cons f fs ih =>
    intro d ns
    calc (List.foldl (mergeStep known) (mergeStep known (d, ns) f) fs).1
        = (mergeFacts known (mergeStep known (d, ns) f).1 fs).1 :=
          ih (mergeStep known (d, ns) f).1 (mergeStep known (d, ns) f).2
      _ = (mergeFacts known (mergeStep known (d, []) f).1 fs).1 := by
          rw [mergeStep_fst_ignores_notes known f d ns []]
      _ = (mergeFacts known d (f :: fs)).1 :=
          (ih (mergeStep known (d, []) f).1 (mergeStep known (d, []) f).2).symm

lemma mergeFacts_fst_cons (known : List String) (f : MetadataFact)
    (fs : List MetadataFact) (d : List (String × String)) :
    (mergeFacts known d (f :: fs)).1 =
      (mergeFacts known (mergeStep known (d, []) f).1 fs).1 := by
  rw [← foldl_mergeStep_fst known fs (mergeStep known (d, []) f).1
    (mergeStep known (d, []) f).2]
  rfl

lemma mergeStep_preserves_nonempty (known : List String) (f : MetadataFact)
    (d : List (String × String)) (ns : List String) (k v : String)
    (h : dictGet d k = some v) (hv : v ≠ "") :
    dictGet (mergeStep known (d, ns) f).1 k = some v := by
  unfold mergeStep
  split_ifs with hk
  · cases hw : dictGet d f.key with
    | none =>
      have hne : f.key ≠ k := fun he => by rw [he, h] at hw; exact Option.noConfusion hw
      simp only [dictGet_dictSet_ne f.key f.value k hne d, h]
    | some w =>
      simp only [hw]
      split_ifs with hw'
      · exact h
      · have hne : f.key ≠ k := by
          intro he
          rw [he, h] at hw
          apply hv
          rw [not_not] at hw'
          rw [Option.some_inj.mp hw]
          exact hw'
        simp only [dictGet_dictSet_ne f.key f.value k hne d, h]
  · exact h

lemma mergeFacts_preserves_nonempty (known : List String) :
    ∀ (facts : List MetadataFact) (d : List (String × String)) (k v : String),
      dictGet d k = some v → v ≠ "" →
      dictGet (mergeFacts known d facts).1 k = some v := by
  intro facts
  induction facts with
  | nil => intro d k v h _; exact h
  | cons f fs ih =>
    intro d k v h hv
    rw [mergeFacts_fst_cons]
    exact ih _ k v (mergeStep_preserves_nonempty known f d [] k v h hv) hv

lemma mergeStep_unknown_key (known : List String) (f : MetadataFact)
    (d : List (String × String)) (ns : List String) (k : String) (hk : k ∉ known) :
    dictGet (mergeStep known (d, ns) f).1 k = dictGet d k := by
  unfold mergeStep
  split_ifs with hf
  · have hne : f.key ≠ k := fun he => hk (he ▸ hf)
    cases hw : dictGet d f.key with
    | none => simp [hw, dictGet_dictSet_ne f.key f.value k hne d]
    | some w =>
      simp only [hw]
      split_ifs with hw'
      · rfl
      · simp only [dictGet_dictSet_ne f.key f.value k hne d]
  · rfl

lemma mergeFacts_unknown_key (known : List String) :
    ∀ (facts : List MetadataFact) (d : List (String × String)) (k : String),
      k ∉ known → dictGet (mergeFacts known d facts).1 k = dictGet d k := by
  intro facts
  induction facts with
  | nil => intro d k _; rfl
  | cons f fs ih =>
    intro d k hk
    rw [mergeFacts_fst_cons]
    rw [ih _ k hk, mergeStep_unknown_key known f d [] k hk]

/-- C6 (corrected): the code decides "already present" by Python
truthiness, so a caller-supplied *empty-string* value does not win: at the
concrete input below, the caller supplied `student_name := ""`, the
extracted fact overwrites it, and the merged metadata no longer carries the
caller's value. -/
theorem caller_empty_value_overwritten :
    dictGet [("student_name", "")] "student_name" = some "" ∧
      (mergeFacts ["student_name"] [("student_name", "")]
          [⟨"student_name", "Alice", "Detected student name."⟩]).1 =
        [("student_name", "Alice")] ∧
      dictGet (mergeFacts ["student_name"] [("student_name", "")]
          [⟨"student_name", "Alice", "Detected student name."⟩]).1 "student_name" ≠
        some "" := by
  refine ⟨by decide, by decide, by decide⟩

/-- C6 (amended): an extracted fact is merged only if its key is in the
known key set and the working metadata holds no *non-empty* value for it;
consequently caller-supplied non-empty values always survive the merge
unchanged, and keys outside the known set are never touched. -/
theorem metadata_merge_policy (known : List String)
    (metadata0 : List (String × String)) (facts : List MetadataFact) :
    (∀ k v, dictGet metadata0 k = some v → v ≠ "" →
      dictGet (mergeFacts known metadata0 facts).1 k = some v) ∧
    ∀ k, k ∉ known →
      dictGet (mergeFacts known metadata0 facts).1 k = dictGet metadata0 k :=
  ⟨fun k v h hv => mergeFacts_preserves_nonempty known facts metadata0 k v h hv,
    fun k hk => mergeFacts_unknown_key known facts metadata0 k hk⟩

lemma getReferences_none (adv : EmailAdvisor) (query : String)
    (article : Option KnowledgeArticle) (reasons : List String)
    (h : adv.retriever = none ∨ adv.referenceLimit ≤ 0) :
    getReferences adv query article reasons = ([], reasons) := by
  unfold getReferences
  rcases h with h | h
  · rw [h]
  · cases adv.retriever with
    | none => rfl
    | some f => exact if_pos h

lemma getReferences_error (adv : EmailAdvisor) (f : RetrieverFun) (query : String)
    (article : Option KnowledgeArticle) (reasons : List String) (e : String)
    (hret : adv.retriever = some f) (hlim : 0 < adv.referenceLimit)
    (herr : f query article adv.referenceLimit = Except.error e) :
    getReferences adv query article reasons =
      ([], reasons ++ ["Reference retrieval failed: " ++ e]) := by
  unfold getReferences
  simp only [hret]
  rw [if_neg (not_le.mpr hlim)]
  simp only [herr]

lemma getReferences_reasons (adv : EmailAdvisor) (query : String)
    (article : Option KnowledgeArticle) (reasons : List String) :
    ∃ tail, (getReferences adv query article reasons).2 = reasons ++ tail ∧
      (tail = [] ∨ ∃ e, tail = ["Reference retrieval failed: " ++ e]) := by
  unfold getReferences
  cases adv.retriever with
  | none => exact ⟨[], by simp, Or.inl rfl⟩
  | some f =>
    split_ifs with h
    · exact ⟨[], by simp, Or.inl rfl⟩
    · cases hr : f query article adv.referenceLimit with
      | ok refs => exact ⟨[], by simp [hr], Or.inl rfl⟩
      | error e =>
        exact ⟨["Reference retrieval failed: " ++ e], by simp [hr], Or.inr ⟨e, rfl⟩⟩

lemma fallbackResponse_error (adv : EmailAdvisor) (msg : String)
    (hret : adv.retriever = some fun _ _ _ => Except.error msg)
    (hlim : 0 < adv.referenceLimit) (query : String)
    (metadata : List (String × String)) (reasons : List String)
    (matchList : List RankedMatch) :
    (fallbackResponse adv query metadata reasons matchList).references = [] ∧
      ("Reference retrieval failed: " ++ msg) ∈
        (fallbackResponse adv query metadata reasons matchList).reasons := by
  simp only [fallbackResponse]
  rw [getReferences_error adv _ query none _ msg hret hlim rfl]
  exact ⟨rfl, by simp⟩

lemma renderedResponse_error (adv : EmailAdvisor) (msg : String)
    (hret : adv.retriever = some fun _ _ _ => Except.error msg)
    (hlim : 0 < adv.referenceLimit) (query : String)
    (metadata : List (String × String)) (notes : List String)
    (matchList : List RankedMatch) (best : RankedMatch)
    (article : KnowledgeArticle) :
    (renderedResponse adv query metadata notes matchList best article).references = [] ∧
      ("Reference retrieval failed: " ++ msg) ∈
        (renderedResponse adv query metadata notes matchList best article).reasons := by
  simp only [renderedResponse]
  rw [getReferences_error adv _ query (some article) _ msg hret hlim rfl]
  refine ⟨rfl, ?_⟩
  split_ifs <;> simp

/-- C9: a raising retriever is caught locally — the failure reason is
appended, the references degrade to the empty list, and `process_query`
still returns a (total) response carrying that reason; with no retriever
or a non-positive limit the references are empty and no reason is
appended. -/
theorem retriever_failure_contained :
    (∀ (adv : EmailAdvisor) (query : String) (article : Option KnowledgeArticle)
        (reasons : List String),
      (adv.retriever = none ∨ adv.referenceLimit ≤ 0) →
        getReferences adv query article reasons = ([], reasons)) ∧
    (∀ (adv : EmailAdvisor) (f : RetrieverFun) (query : String)
        (article : Option KnowledgeArticle) (reasons : List String) (e : String),
      adv.retriever = some f → 0 < adv.referenceLimit →
      f query article adv.referenceLimit = Except.error e →
        getReferences adv query article reasons =
          ([], reasons ++ ["Reference retrieval failed: " ++ e])) ∧
    ∀ (adv : EmailAdvisor) (msg : String) (sims : List String → List ℚ)
        (query : String) (raw : List String) (sents0 : List (List String))
        (facts : List MetadataFact) (metadata0 : List (String × String)),
      adv.retriever = (some fun _ _ _ => Except.error msg) → 0 < adv.referenceLimit →
        (processQuery adv sims query raw sents0 facts metadata0).references = [] ∧
          ("Reference retrieval failed: " ++ msg) ∈
            (processQuery adv sims query raw sents0 facts metadata0).reasons := by
  refine ⟨getReferences_none, getReferences_error, ?_⟩
  intro adv msg sims query raw sents0 facts metadata0 hret hlim
  simp only [processQuery]
  cases hm : rankArticles adv.articles sims raw sents0 with
  | nil => exact fallbackResponse_error adv msg hret hlim query _ _ _
  | cons best rest =>
    dsimp only
    split_ifs with h1 h2
    · exact fallbackResponse_error adv msg hret hlim query _ _ _
    · exact fallbackResponse_error adv msg hret hlim query _ _ _
    · cases hget : kbGet adv.articles best.article_id with
      | none => exact fallbackResponse_error adv msg hret hlim query _ _ _
      | some article => exact renderedResponse_error adv msg hret hlim query _ _ _ _ _

/-- C5: with an empty knowledge base every query takes the fallback path:
confidence 0, decision `needs_review`, no auto-send, no article id, no
follow-up questions, no ranked matches. -/
theorem empty_kb_fallback (adv : EmailAdvisor) (hkb : adv.articles = [])
    (sims : List String → List ℚ) (query : String) (raw : List String)
    (sents0 : List (List String)) (facts : List MetadataFact)
    (metadata0 : List (String × String)) :
    (processQuery adv sims query raw sents0 facts metadata0).confidence = 0 ∧
      (processQuery adv sims query raw sents0 facts metadata0).decision =
        "needs_review" ∧
      (processQuery adv sims query raw sents0 facts metadata0).auto_send = false ∧
      (processQuery adv sims query raw sents0 facts metadata0).article_id = none ∧
      (processQuery adv sims query raw sents0 facts metadata0).follow_up_questions
        = [] ∧
      (processQuery adv sims query raw sents0 facts metadata0).ranked_matches = [] := by
  have hrank : rankArticles adv.articles sims raw sents0 = [] := by
    rw [hkb]; rfl
  simp only [processQuery, hrank]
  exact ⟨rfl, rfl, rfl, rfl, rfl, rfl⟩

theorem empty_kb_fallback_witness :
    emptyAdvisor.articles = [] ∧
      (processQuery emptyAdvisor (fun _ => []) "Can I drop?" ["drop"] [["drop"]]
          [] []).confidence = 0 ∧
      (processQuery emptyAdvisor (fun _ => []) "Can I drop?" ["drop"] [["drop"]]
          [] []).decision = "needs_review" ∧
      (processQuery emptyAdvisor (fun _ => []) "Can I drop?" ["drop"] [["drop"]]
          [] []).ranked_matches = [] :=
  ⟨rfl,
    (empty_kb_fallback emptyAdvisor rfl (fun _ => []) "Can I drop?" ["drop"]
      [["drop"]] [] []).1,
    (empty_kb_fallback emptyAdvisor rfl (fun _ => []) "Can I drop?" ["drop"]
      [["drop"]] [] []).2.1,
    (empty_kb_fallback emptyAdvisor rfl (fun _ => []) "Can I drop?" ["drop"]
      [["drop"]] [] []).2.2.2.2.2⟩

lemma fallbackResponse_reasons_decomp (adv : EmailAdvisor) (query : String)
    (metadata : List (String × String)) (matchList : List RankedMatch)
    (before notes : List String) :
    ∃ b tail,
      (fallbackResponse adv query metadata (before ++ notes) matchList).reasons =
        b ++ notes ++ tail ∧
        (tail = [] ∨ ∃ e, tail = ["Reference retrieval failed: " ++ e]) := by
  simp only [fallbackResponse]
  cases hbe : (before ++ notes).isEmpty with
  | true =>
    rw [List.isEmpty_iff] at hbe
    obtain ⟨hb, hn⟩ := List.append_eq_nil.mp hbe
    rw [if_pos rfl]
    obtain ⟨tail, ht, hor⟩ := getReferences_reasons adv query none [noTemplateReason]
    exact ⟨[noTemplateReason], tail, by rw [ht, hn]; simp, hor⟩
  | false =>
    rw [if_neg (by simp)]
    obtain ⟨tail, ht, hor⟩ := getReferences_reasons adv query none (before ++ notes)
    exact ⟨before, tail, by rw [ht, List.append_assoc], hor⟩

lemma renderedResponse_reasons_decomp (adv : EmailAdvisor) (query : String)
    (metadata : List (String × String)) (notes : List String)
    (matchList : List RankedMatch) (best : RankedMatch)
    (article : KnowledgeArticle) :
    ∃ b, (renderedResponse adv query metadata notes matchList best article).reasons =
      b ++ notes :=
  ⟨_, rfl⟩

/-- C7 (amended): the metadata-extraction notes sit at the end of the
reasons list on every path, except that on the fallback paths a failing
reference retriever appends its failure reason *after* them (the retriever
runs inside `_fallback_response`, after the notes were already appended).
On the rendered path — the one path whose response carries an article id
(every fallback sets `article_id` to `none`) — the notes are strictly
final: the reasons list ends exactly with them. -/
theorem metadata_notes_positions (adv : EmailAdvisor) (sims : List String → List ℚ)
    (query : String) (raw : List String) (sents0 : List (List String))
    (facts : List MetadataFact) (metadata0 : List (String × String)) :
    (∃ b tail,
      (processQuery adv sims query raw sents0 facts metadata0).reasons =
        b ++ (mergeFacts (knownKeys adv) metadata0 facts).2 ++ tail ∧
        (tail = [] ∨ ∃ e, tail = ["Reference retrieval failed: " ++ e])) ∧
    ((processQuery adv sims query raw sents0 facts metadata0).article_id ≠ none →
      ∃ b, (processQuery adv sims query raw sents0 facts metadata0).reasons =
        b ++ (mergeFacts (knownKeys adv) metadata0 facts).2) := by
  constructor
  · simp only [processQuery]
    cases hm : rankArticles adv.articles sims raw sents0 with
    | nil => exact fallbackResponse_reasons_decomp adv query _ _ [] _
    | cons best rest =>
      dsimp only
      split_ifs with h1 h2
      · exact fallbackResponse_reasons_decomp adv query _ _
          [topMatchReason best, ambiguousReason] _
      · exact fallbackResponse_reasons_decomp adv query _ _
          [topMatchReason best, lowConfidenceReason] _
      · cases hget : kbGet adv.articles best.article_id with
        | none =>
          exact fallbackResponse_reasons_decomp adv query _ _
            [topMatchReason best, missingArticleReason] _
        | some article =>
          obtain ⟨b, hb⟩ :=
            renderedResponse_reasons_decomp adv query _ _ (best :: rest) best article
          exact ⟨b, [], by rw [hb, List.append_nil], Or.inl rfl⟩
  · simp only [processQuery]
    cases hm : rankArticles adv.articles sims raw sents0 with
    | nil => intro h; exact absurd rfl h
    | cons best rest =>
      dsimp only
      split_ifs with h1 h2
      · intro h; exact absurd rfl h
      · intro h; exact absurd rfl h
      · cases hget : kbGet adv.articles best.article_id with
        | none => intro h; exact absurd rfl h
        | some article =>
          intro _
          exact renderedResponse_reasons_decomp adv query _ _ (best :: rest) best article

/-- C7 (counterexample): with an empty knowledge base, one accepted
metadata fact and a raising retriever, the response's reasons are the
metadata note followed by the retrieval-failure reason — the
metadata-extraction note is *not* in the final position. -/
theorem metadata_notes_not_last :
    (mergeFacts (knownKeys failingAdvisor) []
        [⟨"term", "Fall 2026", "Detected term Fall 2026."⟩]).2 =
      ["Detected term Fall 2026."] ∧
    (processQuery failingAdvisor (fun _ => []) "q" [] []
        [⟨"term", "Fall 2026", "Detected term Fall 2026."⟩] []).reasons =
      ["Detected term Fall 2026.", "Reference retrieval failed: boom"] ∧
    (processQuery failingAdvisor (fun _ => []) "q" [] []
          [⟨"term", "Fall 2026", "Detected term Fall 2026."⟩] []).reasons.getLast?
      ≠ some "Detected term Fall 2026." := by
  refine ⟨by decide, by decide, by decide⟩

lemma processQuery_rendered (adv : EmailAdvisor) (sims : List String → List ℚ)
    (query : String) (raw : List String) (sents0 : List (List String))
    (facts : List MetadataFact) (metadata0 : List (String × String))
    (best : RankedMatch) (rest : List RankedMatch) (article : KnowledgeArticle)
    (hmatch : rankArticles adv.articles sims raw sents0 = best :: rest)
    (hamb : ambiguousBool adv.settings best rest = false)
    (hrev : ¬ best.confidence < adv.settings.review_threshold)
    (hget : kbGet adv.articles best.article_id = some article) :
    processQuery adv sims query raw sents0 facts metadata0 =
      renderedResponse adv query (mergeFacts (knownKeys adv) metadata0 facts).1
        (mergeFacts (knownKeys adv) metadata0 facts).2 (best :: rest) best article := by
  simp only [processQuery, hmatch]
  rw [if_neg (by simp [hamb]), if_neg (by simp [hrev]), hget]

lemma composeEmail_body (baseSubject baseBody : String)
    (references : List AdvisorReference) :
    (composeEmail baseSubject baseBody references).1 = baseSubject ∧
      ∃ t, (composeEmail baseSubject baseBody references).2 = baseBody ++ t := by
  unfold composeEmail
  split_ifs
  · exact ⟨rfl, "", (String.append_empty _).symm⟩
  · exact ⟨rfl, "\n\nHelpful resources:\n" ++
      String.intercalate "\n" (references.map fun r => "- " ++ r.label),
      by rw [String.append_assoc]⟩

/-- C3: when the best match survives every gate and renders with at least
one unresolved placeholder, the decision is `needs_review` and `auto_send`
is false even though confidence clears the auto-send threshold; a reason
naming the (sorted) missing keys is in the reasons list; and every
unresolved placeholder of the body or subject template survives verbatim,
as the literal `\x7bkey\x7d` text, in the composed output. -/
theorem missing_key_forces_review (adv : EmailAdvisor) (sims : List String → List ℚ)
    (query : String) (raw : List String) (sents0 : List (List String))
    (facts : List MetadataFact) (metadata0 : List (String × String))
    (best : RankedMatch) (rest : List RankedMatch) (article : KnowledgeArticle)
    (hmatch : rankArticles adv.articles sims raw sents0 = best :: rest)
    (hamb : ambiguousBool adv.settings best rest = false)
    (hrev : ¬ best.confidence < adv.settings.review_threshold)
    (hget : kbGet adv.articles best.article_id = some article)
    (hconf : adv.settings.auto_send_threshold ≤ best.confidence)
    (hmiss : (renderArticle adv article
        (mergeFacts (knownKeys adv) metadata0 facts).1).2.missing ≠ []) :
    (processQuery adv sims query raw sents0 facts metadata0).decision =
        "needs_review" ∧
      (processQuery adv sims query raw sents0 facts metadata0).auto_send = false ∧
      missingKeysReason
          (renderArticle adv article
            (mergeFacts (knownKeys adv) metadata0 facts).1).2.missing ∈
        (processQuery adv sims query raw sents0 facts metadata0).reasons ∧
      (∀ k l1 l2, article.bodyParts = l1 ++ TemplatePart.hole k :: l2 →
        dictGet (mergeFacts (knownKeys adv) metadata0 facts).1 k = none →
        dictGet (dictMerge adv.metadataDefaults article.metadata) k = none →
        ∃ p q, (processQuery adv sims query raw sents0 facts metadata0).body =
          p ++ placeholderText k ++ q) ∧
      ∀ k l1 l2, article.subjectParts = l1 ++ TemplatePart.hole k :: l2 →
        dictGet (mergeFacts (knownKeys adv) metadata0 facts).1 k = none →
        dictGet (dictMerge adv.metadataDefaults article.metadata) k = none →
        ∃ p q, (processQuery adv sims query raw sents0 facts metadata0).subject =
          p ++ placeholderText k ++ q := by
  rw [processQuery_rendered adv sims query raw sents0 facts metadata0 best rest
    article hmatch hamb hrev hget]
  have hie : (renderArticle adv article
      (mergeFacts (knownKeys adv) metadata0 facts).1).2.missing.isEmpty = false := by
    cases hmm : (renderArticle adv article
        (mergeFacts (knownKeys adv) metadata0 facts).1).2.missing.isEmpty
    · rfl
    · exact absurd (by rwa [List.isEmpty_iff] at hmm) hmiss
  simp only [renderedResponse, hie, Bool.and_false, Bool.false_eq_true, if_false]
  refine ⟨by simp, by simp, by simp, ?_, ?_⟩
  · intro k l1 l2 hdec hko hkd
    obtain ⟨-, t, hbody⟩ := composeEmail_body
      (renderArticle adv article (mergeFacts (knownKeys adv) metadata0 facts).1).1.1
      (renderArticle adv article (mergeFacts (knownKeys adv) metadata0 facts).1).1.2
      (getReferences adv query (some article) [topMatchReason best]).1
    rw [hbody]
    have hren : (renderArticle adv article
        (mergeFacts (knownKeys adv) metadata0 facts).1).1.2 =
        (renderParts (dictMerge adv.metadataDefaults article.metadata)
          (mergeFacts (knownKeys adv) metadata0 facts).1
          (renderParts (dictMerge adv.metadataDefaults article.metadata)
            (mergeFacts (knownKeys adv) metadata0 facts).1 ⟨[], []⟩
            article.subjectParts).2
          article.bodyParts).1 := rfl
    rw [hren, hdec]
    obtain ⟨p, q, hpq⟩ := renderParts_placeholder
      (dictMerge adv.metadataDefaults article.metadata)
      (mergeFacts (knownKeys adv) metadata0 facts).1 k hko hkd l1 l2
      (renderParts (dictMerge adv.metadataDefaults article.metadata)
        (mergeFacts (knownKeys adv) metadata0 facts).1 ⟨[], []⟩
        article.subjectParts).2
    rw [hpq]
    exact ⟨p, q ++ t, by rw [String.append_assoc, String.append_assoc]⟩
  · intro k l1 l2 hdec hko hkd
    have hsub : (renderArticle adv article
        (mergeFacts (knownKeys adv) metadata0 facts).1).1.1 =
        (renderParts (dictMerge adv.metadataDefaults article.metadata)
          (mergeFacts (knownKeys adv) metadata0 facts).1 ⟨[], []⟩
          article.subjectParts).1 := rfl
    obtain ⟨hcs, -⟩ := composeEmail_body
      (renderArticle adv article (mergeFacts (knownKeys adv) metadata0 facts).1).1.1
      (renderArticle adv article (mergeFacts (knownKeys adv) metadata0 facts).1).1.2
      (getReferences adv query (some article) [topMatchReason best]).1
    rw [hcs, hsub, hdec]
    exact renderParts_placeholder _ _ k hko hkd l1 l2 _

theorem missing_key_forces_review_witness :
    rankArticles missingKeyAdvisor.articles (fun _ => [0]) ["fee", "deadline"]
        [["fee", "deadline"]] =
      [(⟨"fees", "Fee deadlines", 1⟩ : RankedMatch)] ∧
    (processQuery missingKeyAdvisor (fun _ => [0]) "fee deadline?"
        ["fee", "deadline"] [["fee", "deadline"]] [] []).decision = "needs_review" ∧
    (processQuery missingKeyAdvisor (fun _ => [0]) "fee deadline?"
        ["fee", "deadline"] [["fee", "deadline"]] [] []).auto_send = false ∧
    ∃ p q, (processQuery missingKeyAdvisor (fun _ => [0]) "fee deadline?"
        ["fee", "deadline"] [["fee", "deadline"]] [] []).body =
      p ++ placeholderText "advisor_name" ++ q := by
  have h := missing_key_forces_review missingKeyAdvisor (fun _ => [0]) "fee deadline?"
    ["fee", "deadline"] [["fee", "deadline"]] [] []
    ⟨"fees", "Fee deadlines", 1⟩ [] missingKeyArticle
    (by decide) (by decide)
    (by norm_num [missingKeyAdvisor, sampleSettings]) rfl
    (by norm_num [missingKeyAdvisor, sampleSettings]) (by decide)
  exact ⟨by decide, h.1, h.2.1,
    h.2.2.2.1 "advisor_name" [TemplatePart.lit "Ask "]
      [TemplatePart.lit " about fees."] rfl (by decide) (by decide)⟩
